import Mathlib

/-!
Shallow embedding of the similarity-search core of the repository
(`src/main.py` and `src/embedding_service.py`): hashing text embedding,
cosine similarity with a zero-norm guard, keyed upsert storage, corrupt-row
skipping scan, and ranked top-K search, together with theorems settling the
specification claims about them.

Machine floats are modelled by exact reals; Python `None`/empty-string
truthiness by `truthyB` on `Option String`; the SQLite `embeddings` table
(with its `UNIQUE(item_type, item_id)` constraint and `INSERT OR REPLACE`
writes) by a list of rows with a filter-and-append upsert.
-/

namespace AssistantEmbedding

/-! ## Vector arithmetic (main.py `cosine_similarity`, lines 143-149;
embedding_service.py `cosine_similarity`, lines 66-84) -/

/-- Dot product of two vectors, `sum(a * b for a, b in zip(v1, v2))`. -/
def dotList (v w : List ℝ) : ℝ :=
  (List.zipWith (fun a b => a * b) v w).sum

/-- Sum of squared components, `sum(a * a for a in v)`. -/
def normSq (v : List ℝ) : ℝ :=
  (v.map (fun a => a * a)).sum

/-- L2 norm, `sum(a * a for a in v) ** 0.5`. -/
noncomputable def norm2 (v : List ℝ) : ℝ :=
  Real.sqrt (normSq v)

open Classical in
/-- Cosine similarity as written in the source: compute both norms, return
`0.0` if either is zero, otherwise `dot / (n1 * n2)`. -/
noncomputable def cosineSimilarity (v w : List ℝ) : ℝ :=
  if norm2 v = 0 ∨ norm2 w = 0 then 0 else dotList v w / (norm2 v * norm2 w)

theorem normSq_nonneg (v : List ℝ) : 0 ≤ normSq v := by
  induction v with
  | nil => simp [normSq]
  | cons a t ih =>
    simp only [normSq, List.map_cons, List.sum_cons]
    have := mul_self_nonneg a
    have ih' : (0:ℝ) ≤ (t.map (fun a => a * a)).sum := ih
    linarith

theorem norm2_eq_zero_iff (v : List ℝ) : norm2 v = 0 ↔ normSq v = 0 := by
  unfold norm2
  rw [Real.sqrt_eq_zero (normSq_nonneg v)]

theorem dotList_self (v : List ℝ) : dotList v v = normSq v := by
  induction v with
  | nil => rfl
  | cons a t ih =>
    simp only [dotList, normSq, List.zipWith_cons_cons, List.map_cons,
      List.sum_cons] at *
    rw [ih]

theorem normSq_pos_of_mem_ne_zero {v : List ℝ} {x : ℝ}
    (hx : x ∈ v) (hne : x ≠ 0) : 0 < normSq v := by
  have hsq : x * x ≤ normSq v := by
    apply List.single_le_sum
    · intro y hy
      rcases List.mem_map.mp hy with ⟨z, _, rfl⟩
      exact mul_self_nonneg z
    · exact List.mem_map.mpr ⟨x, hx, rfl⟩
  have : 0 < x * x := mul_self_pos.mpr hne
  linarith

/-- C2: cosine similarity equals `dot / (n1 * n2)` when both norms are
non-zero (and that denominator is itself non-zero, so the division is
well-defined), and equals exactly `0` when either norm is zero. -/
theorem cosineSimilarity_spec (v w : List ℝ) :
    ((norm2 v = 0 ∨ norm2 w = 0) → cosineSimilarity v w = 0) ∧
    (norm2 v ≠ 0 → norm2 w ≠ 0 →
      norm2 v * norm2 w ≠ 0 ∧
      cosineSimilarity v w = dotList v w / (norm2 v * norm2 w)) := by
  constructor
  · intro h
    simp [cosineSimilarity, h]
  · intro hv hw
    refine ⟨mul_ne_zero hv hw, ?_⟩
    have hor : ¬(norm2 v = 0 ∨ norm2 w = 0) := by
      rintro (h | h)
      · exact hv h
      · exact hw h
    simp [cosineSimilarity, hor]

/-- Witness for C2 at concrete inputs: the zero-vector branch gives 0 and the
main branch gives the quotient with a non-zero denominator. -/
theorem cosineSimilarity_spec_witness :
    cosineSimilarity [0, 0] [1, 2] = 0 ∧
    (norm2 [1, 0] * norm2 [0, 1] ≠ 0 ∧
      cosineSimilarity [1, 0] [0, 1] =
        dotList [1, 0] [0, 1] / (norm2 [1, 0] * norm2 [0, 1])) := by
  have h0 : norm2 [(0:ℝ), 0] = 0 := by
    rw [norm2_eq_zero_iff]
    simp [normSq]
  have h1 : norm2 [(1:ℝ), 0] = 1 := by
    unfold norm2
    have : normSq [(1:ℝ), 0] = 1 := by simp [normSq]
    rw [this, Real.sqrt_one]
  have h2 : norm2 [(0:ℝ), 1] = 1 := by
    unfold norm2
    have : normSq [(0:ℝ), 1] = 1 := by simp [normSq]
    rw [this, Real.sqrt_one]
  refine ⟨(cosineSimilarity_spec [0, 0] [1, 2]).1 (Or.inl h0), ?_⟩
  exact (cosineSimilarity_spec [1, 0] [0, 1]).2
    (by rw [h1]; exact one_ne_zero) (by rw [h2]; exact one_ne_zero)

/-- C9: for every non-zero vector `v` (some component is non-zero),
`cosineSimilarity v v = 1` exactly, over exact arithmetic. -/
theorem cosineSimilarity_self (v : List ℝ) {x : ℝ}
    (hx : x ∈ v) (hne : x ≠ 0) : cosineSimilarity v v = 1 := by
  have hpos : 0 < normSq v := normSq_pos_of_mem_ne_zero hx hne
  have hnz : normSq v ≠ 0 := ne_of_gt hpos
  have hn2 : norm2 v ≠ 0 := by
    rw [Ne, norm2_eq_zero_iff]
    exact hnz
  have hor : ¬(norm2 v = 0 ∨ norm2 v = 0) := by
    rintro (h | h) <;> exact hn2 h
  unfold cosineSimilarity
  rw [if_neg hor, dotList_self]
  rw [show norm2 v * norm2 v = normSq v from Real.mul_self_sqrt (normSq_nonneg v)]
  exact div_self hnz

/-- Witness for C9: the non-zero vector `[3, 4]` has self-similarity 1. -/
theorem cosineSimilarity_self_witness : cosineSimilarity [3, 4] [3, 4] = 1 :=
  cosineSimilarity_self [3, 4] (x := 3) (by simp) (by norm_num)

/-! ## Hashing embedding (main.py `text_to_vector`, lines 129-140).
Python's builtin `hash` is modelled as a parameter `hash : String → ℤ`
(fixed for a given interpreter process); `h % dim` is Python's floored
modulo, which for a positive modulus agrees with `Int.emod`. -/

/-- Python `text.split()`: split on whitespace runs, dropping empty pieces. -/
def pySplit (s : String) : List String :=
  (s.split Char.isWhitespace).filter (fun t => !(t == ""))

/-- One loop iteration `vec[idx] += 1.0`. -/
def bump (vec : List ℝ) (idx : ℕ) : List ℝ :=
  vec.set idx (vec.getD idx 0 + 1)

/-- The token-histogram accumulation loop over `[0.0] * dim`. -/
def histogram (hash : String → ℤ) (dim : ℕ) (text : String) : List ℝ :=
  (pySplit text).foldl
    (fun vec tok => bump vec ((hash tok % (dim : ℤ)).toNat))
    (List.replicate dim 0)

open Classical in
/-- main.py `text_to_vector`: histogram, then L2-normalize when the norm is
positive. -/
noncomputable def textToVector (hash : String → ℤ) (dim : ℕ) (text : String) :
    List ℝ :=
  let vec := histogram hash dim text
  let n := norm2 vec
  if 0 < n then vec.map (fun v => v / n) else vec

theorem histogram_length (hash : String → ℤ) (dim : ℕ) (text : String) :
    (histogram hash dim text).length = dim := by
  unfold histogram
  have hgen : ∀ (toks : List String) (vec : List ℝ),
      (toks.foldl (fun vec tok => bump vec ((hash tok % (dim : ℤ)).toNat)) vec).length
        = vec.length := by
    intro toks
    induction toks with
    | nil => intro vec; rfl
    | cons a t ih =>
      intro vec
      simp only [List.foldl_cons]
      rw [ih]
      simp [bump]
  rw [hgen]
  simp

/-- C6: under the hashing strategy, `text_to_vector` always returns a vector
of length exactly `dim`, and is deterministic: equal input texts produce
identical output vectors. -/
theorem textToVector_spec (hash : String → ℤ) (dim : ℕ) (t₁ t₂ : String)
    (heq : t₁ = t₂) :
    (textToVector hash dim t₁).length = dim ∧
    textToVector hash dim t₁ = textToVector hash dim t₂ := by
  subst heq
  refine ⟨?_, rfl⟩
  unfold textToVector
  by_cases h : 0 < norm2 (histogram hash dim t₁) <;>
    simp [h, histogram_length]

/-- Witness for C6 at a concrete hash function, dimensionality and text. -/
theorem textToVector_spec_witness :
    (textToVector (fun s => (s.length : ℤ)) 64 "hotel booking").length = 64 ∧
    textToVector (fun s => (s.length : ℤ)) 64 "hotel booking" =
      textToVector (fun s => (s.length : ℤ)) 64 "hotel booking" :=
  textToVector_spec (fun s => (s.length : ℤ)) 64 "hotel booking" "hotel booking" rfl

/-! ## Keyed storage with upsert (main.py `init_db` UNIQUE(item_type,item_id)
and `store_embedding`, lines 152-166; embedding_service.py `store_embedding`,
lines 39-64). `INSERT OR REPLACE` under the unique key deletes any
conflicting row and appends a fresh row, modelled as filter-and-append. A
stored vector blob always parses back (`json.dumps`/`json.loads` round-trip);
a corrupt blob is one that fails to parse. -/

/-- A serialized `vector_blob` column value: either a well-formed JSON vector
or an unparsable payload. -/
inductive Blob where
  | vec : List ℝ → Blob
  | corrupt : Blob

/-- `json.loads` of a blob: the vector, or failure. -/
def parseVec : Blob → Option (List ℝ)
  | Blob.vec v => some v
  | Blob.corrupt => none

/-- `INSERT OR REPLACE` keyed by `key`: drop every row with the same key,
append the new row (which receives a fresh autoincrement rowid, hence scans
last). -/
def upsertBy {α : Type} (key : α → String × String) (tbl : List α) (r : α) :
    List α :=
  (tbl.filter fun q => !(key q == key r)) ++ [r]

/-- Number of rows matching a key (`SELECT COUNT(*) ... WHERE item_type=?
AND item_id=?`). -/
def keyCount {α : Type} (key : α → String × String) (tbl : List α)
    (k : String × String) : ℕ :=
  (tbl.filter fun q => key q == k).length

/-- First row matching a key (`fetchone` of a keyed SELECT). -/
def findByKey {α : Type} (key : α → String × String) (tbl : List α)
    (k : String × String) : Option α :=
  tbl.find? fun q => key q == k

theorem filter_filter_not {α : Type} (p : α → Bool) (l : List α) :
    (l.filter fun q => !(p q)).filter p = [] := by
  induction l with
  | nil => rfl
  | cons a t ih =>
    by_cases h : p a <;> simp [List.filter_cons, h, ih]

theorem keyCount_upsertBy_self {α : Type} (key : α → String × String)
    (tbl : List α) (r : α) :
    keyCount key (upsertBy key tbl r) (key r) = 1 := by
  unfold keyCount upsertBy
  rw [List.filter_append, filter_filter_not (fun q => key q == key r)]
  simp

theorem keyCount_upsertBy_le {α : Type} (key : α → String × String)
    (tbl : List α) (r : α) (k : String × String) (hk : k ≠ key r) :
    keyCount key (upsertBy key tbl r) k ≤ keyCount key tbl k := by
  unfold keyCount upsertBy
  rw [List.filter_append]
  have hr : (key r == k) = false := by
    simp only [beq_eq_false_iff_ne, ne_eq]
    intro h
    exact hk h.symm
  have h2 : (([r] : List α).filter fun q => key q == k) = [] := by simp [hr]
  rw [h2, List.append_nil]
  exact ((List.filter_sublist tbl).filter _).length_le

theorem keyCount_upsertBy_le_one {α : Type} (key : α → String × String)
    (tbl : List α) (r : α) (k : String × String)
    (h : keyCount key tbl k ≤ 1) :
    keyCount key (upsertBy key tbl r) k ≤ 1 := by
  by_cases hk : k = key r
  · subst hk
    rw [keyCount_upsertBy_self]
  · exact le_trans (keyCount_upsertBy_le key tbl r k hk) h

theorem find?_filter_not_append {α : Type} (p : α → Bool) (l : List α)
    (r : α) (hr : p r = true) :
    ((l.filter fun q => !(p q)) ++ [r]).find? p = some r := by
  induction l with
  | nil => simp [List.find?, hr]
  | cons a t ih =>
    by_cases h : p a <;> simp [List.filter_cons, h, List.find?_cons, ih]

theorem findByKey_upsertBy_self {α : Type} (key : α → String × String)
    (tbl : List α) (r : α) :
    findByKey key (upsertBy key tbl r) (key r) = some r := by
  unfold findByKey upsertBy
  exact find?_filter_not_append _ tbl r (by simp)

/-- Row of main.py's `embeddings` table: `item_type`, `item_id`,
`vector_blob`, `timestamp`. -/
structure MRow where
  itemType : String
  itemId : String
  blob : Blob
  timestamp : String

/-- Row of embedding_service.py's `embeddings` table, which additionally
persists `text_content`. -/
structure ERow where
  itemType : String
  itemId : String
  blob : Blob
  timestamp : String
  textContent : Option String

/-- The unique key of a main.py row. -/
def mKey (r : MRow) : String × String := (r.itemType, r.itemId)

/-- The unique key of an embedding_service.py row. -/
def eKey (r : ERow) : String × String := (r.itemType, r.itemId)

/-- main.py `store_embedding` (lines 152-166): embed the text with the
hashing strategy, serialize, and `INSERT OR REPLACE` under the unique key. -/
noncomputable def mainStoreEmbedding (hash : String → ℤ) (tbl : List MRow)
    (itype iid text ts : String) : List MRow :=
  upsertBy mKey tbl ⟨itype, iid, Blob.vec (textToVector hash 64 text), ts⟩

/-- embedding_service.py `store_embedding` (lines 39-64): embed the text with
the (already failure-recovered, hence total) model embedding, serialize, and
`INSERT OR REPLACE` under the unique key, persisting the source text. -/
def esStoreEmbedding (embed : String → List ℝ) (tbl : List ERow)
    (itype iid text ts : String) : List ERow :=
  upsertBy eKey tbl ⟨itype, iid, Blob.vec (embed text), ts, some text⟩

/-- One `store_embedding(item_type, item_id, text)` call (with its wall-clock
timestamp). -/
structure StoreOp where
  itemType : String
  itemId : String
  text : String
  ts : String

/-- A sequence of main.py store calls applied to the initially empty table. -/
noncomputable def mainApplyStores (hash : String → ℤ) (ops : List StoreOp) :
    List MRow :=
  ops.foldl
    (fun tbl op => mainStoreEmbedding hash tbl op.itemType op.itemId op.text op.ts)
    []

/-- A sequence of embedding_service.py store calls applied to the initially
empty table. -/
def esApplyStores (embed : String → List ℝ) (ops : List StoreOp) :
    List ERow :=
  ops.foldl
    (fun tbl op => esStoreEmbedding embed tbl op.itemType op.itemId op.text op.ts)
    []

theorem keyCount_foldl_upsert {α β : Type} (key : α → String × String)
    (f : β → α) (ops : List β) (init : List α)
    (h : ∀ k, keyCount key init k ≤ 1) (k : String × String) :
    keyCount key
      (ops.foldl (fun tbl op => upsertBy key tbl (f op)) init) k ≤ 1 := by
  induction ops generalizing init with
  | nil => exact h k
  | cons a t ih =>
    simp only [List.foldl_cons]
    exact ih (upsertBy key init (f a))
      (fun j => keyCount_upsertBy_le_one key init (f a) j (h j))

/-- C3: under any sequence of store operations, at most one embeddings row
exists per `(item_type, item_id)` pair, in both implementations; and storing
twice at the same pair leaves exactly one row for that pair, holding the
vector (and, where persisted, text) of the latest store — never a
duplicate. -/
theorem store_upsert_unique (hash : String → ℤ) (embed : String → List ℝ)
    (ops : List StoreOp) (k : String × String) (tblm : List MRow)
    (tble : List ERow) (t i x y tsx tsy : String) :
    keyCount mKey (mainApplyStores hash ops) k ≤ 1 ∧
    keyCount eKey (esApplyStores embed ops) k ≤ 1 ∧
    keyCount mKey
      (mainStoreEmbedding hash (mainStoreEmbedding hash tblm t i x tsx) t i y tsy)
      (t, i) = 1 ∧
    findByKey mKey
      (mainStoreEmbedding hash (mainStoreEmbedding hash tblm t i x tsx) t i y tsy)
      (t, i) = some ⟨t, i, Blob.vec (textToVector hash 64 y), tsy⟩ ∧
    keyCount eKey
      (esStoreEmbedding embed (esStoreEmbedding embed tble t i x tsx) t i y tsy)
      (t, i) = 1 ∧
    findByKey eKey
      (esStoreEmbedding embed (esStoreEmbedding embed tble t i x tsx) t i y tsy)
      (t, i) = some ⟨t, i, Blob.vec (embed y), tsy, some y⟩ := by
  refine ⟨?_, ?_, ?_, ?_, ?_, ?_⟩
  · unfold mainApplyStores
    simp only [mainStoreEmbedding]
    exact keyCount_foldl_upsert mKey
      (fun op => ⟨op.itemType, op.itemId,
        Blob.vec (textToVector hash 64 op.text), op.ts⟩)
      ops [] (fun j => by simp [keyCount]) k
  · unfold esApplyStores
    simp only [esStoreEmbedding]
    exact keyCount_foldl_upsert eKey
      (fun op => ⟨op.itemType, op.itemId, Blob.vec (embed op.text), op.ts,
        some op.text⟩)
      ops [] (fun j => by simp [keyCount]) k
  · exact keyCount_upsertBy_self mKey _ _
  · exact findByKey_upsertBy_self mKey _ _
  · exact keyCount_upsertBy_self eKey _ _
  · exact findByKey_upsertBy_self eKey _ _

/-! ## Similarity search (main.py `api_search_similar`, lines 327-357;
embedding_service.py `search_similar_items`, lines 86-146). Python truthiness
of the optional string arguments (`None` and `""` are falsy) is `truthyB`;
Python's stable descending sort by score is modelled by `insertionSort` with
a non-increasing-score relation. -/

/-- Python truthiness of an optional string: `None` and `""` are falsy. -/
def truthyB : Option String → Bool
  | none => false
  | some s => !(s == "")

/-- One scored search result (`item_type`, `item_id`, `score`, optional
display text). -/
structure SimItem where
  itemType : String
  itemId : String
  score : ℝ
  text : Option String

/-- The sort order of search results: non-increasing score. -/
def descendingScore (a b : SimItem) : Prop := b.score ≤ a.score

noncomputable instance : DecidableRel descendingScore :=
  fun a b => Real.decidableLE b.score a.score

instance : IsTotal SimItem descendingScore :=
  ⟨fun a b => le_total b.score a.score⟩

instance : IsTrans SimItem descendingScore :=
  ⟨fun _ _ _ h₁ h₂ => le_trans h₂ h₁⟩

/-- main.py `get_embedding` (lines 169-179): first row matching the key, its
blob parsed; `None` when the row is absent or the blob unparsable. -/
def mainGetEmbedding (tbl : List MRow) (t i : String) : Option (List ℝ) :=
  (tbl.find? fun r => r.itemType == t && r.itemId == i).bind fun r =>
    parseVec r.blob

/-- main.py `get_all_embeddings` (lines 182-190): full scan, skipping any row
whose blob fails to parse. -/
def mainGetAllEmbeddings (tbl : List MRow) : List (String × String × List ℝ) :=
  tbl.filterMap fun r => (parseVec r.blob).map fun v => (r.itemType, r.itemId, v)

/-- Query-vector resolution in `api_search_similar` (lines 332-343):
`message_text` takes precedence; otherwise a truthy `summary_id` is looked up
as a stored summary embedding. -/
noncomputable def mainResolve (hash : String → ℤ) (tbl : List MRow)
    (mt sid : Option String) : Option (List ℝ) :=
  if truthyB mt then some (textToVector hash 64 (mt.getD ""))
  else if truthyB sid then mainGetEmbedding tbl "summary" (sid.getD "")
  else none

/-- The candidate-scoring loop of `api_search_similar` (lines 345-351): scan
all embeddings, skip the referenced summary itself when `summary_id` is
truthy, score the rest by cosine similarity. -/
noncomputable def mainScored (tbl : List MRow) (sid : Option String)
    (qv : List ℝ) : List SimItem :=
  (mainGetAllEmbeddings tbl).filterMap fun c =>
    if truthyB sid && (c.1 == "summary") && (c.2.1 == sid.getD "") then none
    else some ⟨c.1, c.2.1, cosineSimilarity qv c.2.2, none⟩

/-- main.py `api_search_similar` (lines 327-357): reject when neither query
field is truthy; resolve the query vector (empty result on a resolution
miss); score, sort descending, and return the first
`max(1, min(top_k, 10))` results. -/
noncomputable def apiSearchSimilar (hash : String → ℤ) (tbl : List MRow)
    (mt sid : Option String) (topK : ℤ) : Except Unit (List SimItem) :=
  if !truthyB sid && !truthyB mt then Except.error ()
  else
    match mainResolve hash tbl mt sid with
    | none => Except.ok []
    | some qv =>
        Except.ok
          ((List.insertionSort descendingScore (mainScored tbl sid qv)).take
            (max 1 (min topK 10)).toNat)

/-- Display truncation in embedding_service.py (line 134): texts longer than
200 characters are cut and marked. -/
def truncateText (s : String) : String :=
  if s.length > 200 then (s.take 200).append "..." else s

/-- Query-vector resolution in `search_similar_items` (lines 89-105):
`query_text` takes precedence; otherwise the referenced summary row's stored
text is re-embedded; a missing row or missing text resolves to nothing. -/
def esResolve (embed : String → List ℝ) (tbl : List ERow)
    (qt sid : Option String) : Option (List ℝ) :=
  if truthyB qt then some (embed (qt.getD ""))
  else if truthyB sid then
    match tbl.find? (fun r => r.itemId == sid.getD "" && r.itemType == "summary") with
    | none => none
    | some r =>
        if truthyB r.textContent then some (embed (r.textContent.getD ""))
        else none
  else none

/-- The eligible, scored candidates of `search_similar_items` (lines
119-138): rows with truthy stored text and a parsable vector blob, scored by
cosine similarity, their display text truncated. -/
noncomputable def esCandidates (qv : List ℝ) (tbl : List ERow) : List SimItem :=
  tbl.filterMap fun r =>
    if !truthyB r.textContent then none
    else (parseVec r.blob).map fun v =>
      ⟨r.itemType, r.itemId, cosineSimilarity qv v,
        some (truncateText (r.textContent.getD ""))⟩

/-- embedding_service.py `search_similar_items` (lines 86-146): resolve the
query vector (empty result on a miss), score all eligible candidates, sort by
score descending, return the first `top_k`. -/
noncomputable def esSearchSimilarItems (embed : String → List ℝ)
    (tbl : List ERow) (qt sid : Option String) (topK : ℕ) : List SimItem :=
  match esResolve embed tbl qt sid with
  | none => []
  | some qv => (List.insertionSort descendingScore (esCandidates qv tbl)).take topK

/-- embedding_service.py `generate_embedding` (lines 29-37): try the external
model; on failure fall back to `np.random.random(384)`, modelled as drawing
the next 384 values of the ambient RNG stream and advancing its state.
Returns the vector and the post-call RNG state; no exception escapes. -/
def generateEmbedding (encode : String → Option (List ℝ)) (rng : ℕ → ℝ)
    (state : ℕ) (text : String) : List ℝ × ℕ :=
  match encode text with
  | some v => (v, state)
  | none => ((List.range 384).map fun i => rng (state + i), state + 384)

/-- C1: whenever the embedding_service search resolves a query vector, the
returned results are sorted by non-increasing cosine score, number at most
`top_k` (exactly `min top_k #eligible`), and fall short of `top_k` exactly
when fewer eligible candidates exist. -/
theorem esSearch_ranked_topk (embed : String → List ℝ) (tbl : List ERow)
    (qt sid : Option String) (k : ℕ) (qv : List ℝ)
    (hres : esResolve embed tbl qt sid = some qv) :
    List.Sorted descendingScore (esSearchSimilarItems embed tbl qt sid k) ∧
    (esSearchSimilarItems embed tbl qt sid k).length
      = min k (esCandidates qv tbl).length ∧
    (esSearchSimilarItems embed tbl qt sid k).length ≤ k ∧
    ((esSearchSimilarItems embed tbl qt sid k).length < k ↔
      (esCandidates qv tbl).length < k) := by
  have hdef : esSearchSimilarItems embed tbl qt sid k
      = (List.insertionSort descendingScore (esCandidates qv tbl)).take k := by
    unfold esSearchSimilarItems
    rw [hres]
  have hsorted := List.sorted_insertionSort descendingScore (esCandidates qv tbl)
  have hlen : ((List.insertionSort descendingScore (esCandidates qv tbl)).take k).length
      = min k (esCandidates qv tbl).length := by
    rw [List.length_take, (List.perm_insertionSort descendingScore _).length_eq]
  refine ⟨?_, ?_, ?_, ?_⟩
  · rw [hdef]
    exact List.Pairwise.sublist (List.take_sublist _ _) hsorted
  · rw [hdef, hlen]
  · rw [hdef, hlen]
    omega
  · rw [hdef, hlen]
    omega

/-- Witness for C1: a text query against the empty store resolves, and the
theorem's conclusions hold there. -/
theorem esSearch_ranked_topk_witness :
    List.Sorted descendingScore
      (esSearchSimilarItems (fun _ => []) [] (some "q") none 3) ∧
    (esSearchSimilarItems (fun _ => []) [] (some "q") none 3).length
      = min 3 (esCandidates [] []).length ∧
    (esSearchSimilarItems (fun _ => []) [] (some "q") none 3).length ≤ 3 ∧
    ((esSearchSimilarItems (fun _ => []) [] (some "q") none 3).length < 3 ↔
      (esCandidates [] []).length < 3) :=
  esSearch_ranked_topk (fun _ => []) [] (some "q") none 3 [] rfl

/-- C4: when the main.py search is resolved by reference to a stored summary
(`message_text` falsy, `summary_id` truthy), the referenced record itself
never appears among the returned results. -/
theorem mainSearch_excludes_self (hash : String → ℤ) (tbl : List MRow)
    (mt : Option String) (sidv : String) (k : ℤ) (res : List SimItem)
    (hmt : truthyB mt = false) (hsv : sidv ≠ "")
    (hok : apiSearchSimilar hash tbl mt (some sidv) k = Except.ok res) :
    ∀ it ∈ res, ¬(it.itemType = "summary" ∧ it.itemId = sidv) := by
  have hsid : truthyB (some sidv) = true := by simp [truthyB, hsv]
  unfold apiSearchSimilar at hok
  rw [hsid, hmt] at hok
  simp only [Bool.not_true, Bool.not_false, Bool.false_and, Bool.false_eq_true,
    if_false] at hok
  cases hres : mainResolve hash tbl mt (some sidv) with
  | none =>
    rw [hres] at hok
    simp only [Except.ok.injEq] at hok
    subst hok
    simp
  | some qv =>
    rw [hres] at hok
    simp only [Except.ok.injEq] at hok
    subst hok
    intro it hit hsum
    have h1 : it ∈ List.insertionSort descendingScore
        (mainScored tbl (some sidv) qv) :=
      (List.take_sublist _ _).subset hit
    have h2 : it ∈ mainScored tbl (some sidv) qv :=
      (List.perm_insertionSort descendingScore _).mem_iff.mp h1
    rcases List.mem_filterMap.mp h2 with ⟨c, _, hcf⟩
    by_cases hguard :
        (truthyB (some sidv) && (c.1 == "summary") && (c.2.1 == (some sidv).getD "")) = true
    · rw [if_pos hguard] at hcf
      exact Option.noConfusion hcf
    · rw [if_neg hguard] at hcf
      have heq : (⟨c.1, c.2.1, cosineSimilarity qv c.2.2, none⟩ : SimItem) = it :=
        Option.some.inj hcf
      apply hguard
      have hc1 : c.1 = "summary" := by
        have h := hsum.1
        rw [← heq] at h
        exact h
      have hc2 : c.2.1 = sidv := by
        have h := hsum.2
        rw [← heq] at h
        exact h
      rw [hsid, hc1, hc2]
      simp

/-- Witness for C4: a by-reference query to stored summary `s1`, with a
task record also stored, returns exactly the task record — which is not the
referenced summary. -/
theorem mainSearch_excludes_self_witness :
    ¬((⟨"task", "t1", cosineSimilarity [1] [1], none⟩ : SimItem).itemType
        = "summary" ∧
      (⟨"task", "t1", cosineSimilarity [1] [1], none⟩ : SimItem).itemId = "s1") :=
  mainSearch_excludes_self (fun s => (s.length : ℤ))
    [⟨"summary", "s1", Blob.vec [1], "ts"⟩, ⟨"task", "t1", Blob.vec [1], "ts"⟩]
    none "s1" 3 [⟨"task", "t1", cosineSimilarity [1] [1], none⟩] rfl (by decide)
    (by
      have h : ¬("s1" : String) = "" := by decide
      norm_num [apiSearchSimilar, mainResolve, mainGetEmbedding, truthyB,
        parseVec, mainScored, mainGetAllEmbeddings, List.insertionSort,
        List.orderedInsert, List.take, h])
    ⟨"task", "t1", cosineSimilarity [1] [1], none⟩ (by simp)

/-- C7: a by-reference search whose referenced summary record is absent from
the store returns an empty result, not an error, in both implementations. -/
theorem search_missing_ref_empty (embed : String → List ℝ) (hash : String → ℤ)
    (tble : List ERow) (tblm : List MRow) (qt mt : Option String)
    (sidv : String) (ke : ℕ) (km : ℤ)
    (hqt : truthyB qt = false) (hmt : truthyB mt = false) (hsv : sidv ≠ "")
    (he : tble.find? (fun r => r.itemId == sidv && r.itemType == "summary") = none)
    (hm : tblm.find? (fun r => r.itemType == "summary" && r.itemId == sidv) = none) :
    esSearchSimilarItems embed tble qt (some sidv) ke = [] ∧
    apiSearchSimilar hash tblm mt (some sidv) km = Except.ok [] := by
  have hsid : truthyB (some sidv) = true := by simp [truthyB, hsv]
  constructor
  · unfold esSearchSimilarItems esResolve
    simp [hqt, hsid, he]
  · unfold apiSearchSimilar mainResolve mainGetEmbedding
    simp [hqt, hmt, hsid, hm]

/-- Witness for C7: a by-reference query for `s1` against empty stores gives
an empty result from both implementations. -/
theorem search_missing_ref_empty_witness :
    esSearchSimilarItems (fun _ => []) [] none (some "s1") 3 = [] ∧
    apiSearchSimilar (fun s => (s.length : ℤ)) [] none (some "s1") 3
      = Except.ok [] :=
  search_missing_ref_empty (fun _ => []) (fun s => (s.length : ℤ)) [] []
    none none "s1" 3 3 rfl rfl (by decide) rfl rfl

/-- C10: in the main.py endpoint, a request with a truthy text query is never
rejected, the result count is clamped to at most 10 whatever `top_k` says,
and even for `top_k ≤ 0` at least one result is returned whenever at least
one eligible candidate exists. -/
theorem mainSearch_topk_clamped (hash : String → ℤ) (tbl : List MRow)
    (mt sid : Option String) (k : ℤ) (hmt : truthyB mt = true) :
    ∃ res, apiSearchSimilar hash tbl mt sid k = Except.ok res ∧
      res.length ≤ 10 ∧
      (mainScored tbl sid (textToVector hash 64 (mt.getD "")) ≠ [] →
        1 ≤ res.length) := by
  refine ⟨(List.insertionSort descendingScore
      (mainScored tbl sid (textToVector hash 64 (mt.getD "")))).take
        (max 1 (min k 10)).toNat, ?_, ?_, ?_⟩
  · unfold apiSearchSimilar mainResolve
    simp [hmt]
  · rw [List.length_take]
    have h10 : (max 1 (min k 10)).toNat ≤ 10 := by omega
    omega
  · intro hne
    rw [List.length_take, (List.perm_insertionSort descendingScore _).length_eq]
    have h1 : 1 ≤ (max 1 (min k 10)).toNat := by omega
    have h2 : 1 ≤ (mainScored tbl sid (textToVector hash 64 (mt.getD ""))).length :=
      List.length_pos.mpr hne
    omega

/-- Witness for C10: a text query with `top_k = 0` against the empty store is
accepted and the clamping bounds hold. -/
theorem mainSearch_topk_clamped_witness :
    ∃ res, apiSearchSimilar (fun s => (s.length : ℤ)) [] (some "hello") none 0
        = Except.ok res ∧
      res.length ≤ 10 ∧
      (mainScored [] none
          (textToVector (fun s => (s.length : ℤ)) 64 ((some "hello").getD "")) ≠ [] →
        1 ≤ res.length) :=
  mainSearch_topk_clamped (fun s => (s.length : ℤ)) [] (some "hello") none 0
    (by decide)

/-- C8: a stored record whose vector payload is unparsable is skipped by the
full scan and leaves the results of a text-query search unchanged, in both
implementations — it never aborts the scan or the query. -/
theorem search_skips_corrupt (hash : String → ℤ) (embed : String → List ℝ)
    (t₁ t₂ : List MRow) (c : MRow) (e₁ e₂ : List ERow) (ce : ERow)
    (mt qt sid : Option String) (km : ℤ) (ke : ℕ) (qv : List ℝ)
    (hc : parseVec c.blob = none) (hce : parseVec ce.blob = none)
    (hmt : truthyB mt = true) (hqt : truthyB qt = true) :
    mainGetAllEmbeddings (t₁ ++ c :: t₂) = mainGetAllEmbeddings (t₁ ++ t₂) ∧
    apiSearchSimilar hash (t₁ ++ c :: t₂) mt sid km
      = apiSearchSimilar hash (t₁ ++ t₂) mt sid km ∧
    esCandidates qv (e₁ ++ ce :: e₂) = esCandidates qv (e₁ ++ e₂) ∧
    esSearchSimilarItems embed (e₁ ++ ce :: e₂) qt sid ke
      = esSearchSimilarItems embed (e₁ ++ e₂) qt sid ke := by
  have hmain : mainGetAllEmbeddings (t₁ ++ c :: t₂) = mainGetAllEmbeddings (t₁ ++ t₂) := by
    unfold mainGetAllEmbeddings
    simp [List.filterMap_append, List.filterMap_cons, hc]
  have hscored : ∀ qv', mainScored (t₁ ++ c :: t₂) sid qv'
      = mainScored (t₁ ++ t₂) sid qv' := by
    intro qv'
    unfold mainScored
    rw [hmain]
  have hres1 : mainResolve hash (t₁ ++ c :: t₂) mt sid
      = some (textToVector hash 64 (mt.getD "")) := by
    simp [mainResolve, hmt]
  have hres2 : mainResolve hash (t₁ ++ t₂) mt sid
      = some (textToVector hash 64 (mt.getD "")) := by
    simp [mainResolve, hmt]
  have hesc : ∀ qv', esCandidates qv' (e₁ ++ ce :: e₂)
      = esCandidates qv' (e₁ ++ e₂) := by
    intro qv'
    unfold esCandidates
    have hfce : (if !truthyB ce.textContent then none
        else (parseVec ce.blob).map fun v =>
          (⟨ce.itemType, ce.itemId, cosineSimilarity qv' v,
            some (truncateText (ce.textContent.getD ""))⟩ : SimItem)) = none := by
      by_cases h : truthyB ce.textContent <;> simp [h, hce]
    simp only [List.filterMap_append, List.filterMap_cons, hfce]
  have heres1 : esResolve embed (e₁ ++ ce :: e₂) qt sid
      = some (embed (qt.getD "")) := by
    simp [esResolve, hqt]
  have heres2 : esResolve embed (e₁ ++ e₂) qt sid
      = some (embed (qt.getD "")) := by
    simp [esResolve, hqt]
  refine ⟨hmain, ?_, hesc qv, ?_⟩
  · unfold apiSearchSimilar
    rw [hres1, hres2]
    simp only [hscored]
  · unfold esSearchSimilarItems
    rw [heres1, heres2]
    simp only [hesc]

/-- Witness for C8 at a concrete corrupt row: a one-corrupt-row store scans
and searches identically to the empty store. -/
theorem search_skips_corrupt_witness :
    mainGetAllEmbeddings ([] ++ ⟨"x", "y", Blob.corrupt, "ts"⟩ :: [])
      = mainGetAllEmbeddings ([] ++ []) ∧
    apiSearchSimilar (fun s => (s.length : ℤ))
        ([] ++ ⟨"x", "y", Blob.corrupt, "ts"⟩ :: []) (some "m") none 3
      = apiSearchSimilar (fun s => (s.length : ℤ)) ([] ++ []) (some "m") none 3 ∧
    esCandidates [] ([] ++ ⟨"x", "y", Blob.corrupt, "ts", none⟩ :: [])
      = esCandidates [] ([] ++ []) ∧
    esSearchSimilarItems (fun _ => [])
        ([] ++ ⟨"x", "y", Blob.corrupt, "ts", none⟩ :: []) (some "t") none 3
      = esSearchSimilarItems (fun _ => []) ([] ++ []) (some "t") none 3 :=
  search_skips_corrupt (fun s => (s.length : ℤ)) (fun _ => [])
    [] [] ⟨"x", "y", Blob.corrupt, "ts"⟩ [] [] ⟨"x", "y", Blob.corrupt, "ts", none⟩
    (some "m") (some "t") none 3 3 [] rfl rfl (by decide) (by decide)

/-- C5 counterexample: with the external model failing, two successive
`generate_embedding` calls with the same text read different positions of
the ambient RNG stream, so the fallback vector is not deterministic — shown
at the concrete stream `n ↦ n`. -/
theorem generateEmbedding_not_deterministic :
    (generateEmbedding (fun _ => none) (fun n => (n : ℝ))
        (generateEmbedding (fun _ => none) (fun n => (n : ℝ)) 0 "hello").2
        "hello").1 ≠
      (generateEmbedding (fun _ => none) (fun n => (n : ℝ)) 0 "hello").1 := by
  intro h
  have h0 := congrArg (fun l => l[0]?) h
  simp only [generateEmbedding, List.getElem?_map,
    List.getElem?_range (by norm_num : (0:ℕ) < 384), Option.map_some] at h0
  have : ((0 + 384 + 0 : ℕ) : ℝ) = ((0 + 0 : ℕ) : ℝ) := Option.some.inj h0
  norm_num at this

/-- C5 amended: when the external model fails, `generate_embedding` does not
raise — it returns a substitute vector of length 384 drawn from the ambient
RNG (advancing its state by 384); the substitute depends on that state and is
therefore not deterministic across calls. -/
theorem generateEmbedding_total_fallback (encode : String → Option (List ℝ))
    (rng : ℕ → ℝ) (state : ℕ) (text : String) (hfail : encode text = none) :
    (generateEmbedding encode rng state text).1.length = 384 ∧
    (generateEmbedding encode rng state text).2 = state + 384 := by
  unfold generateEmbedding
  rw [hfail]
  simp

/-- Witness for the amended C5: a failing encoder yields a 384-length
fallback vector and advances the RNG state. -/
theorem generateEmbedding_total_fallback_witness :
    (generateEmbedding (fun _ => none) (fun n => (n : ℝ)) 0 "x").1.length = 384 ∧
    (generateEmbedding (fun _ => none) (fun n => (n : ℝ)) 0 "x").2 = 0 + 384 :=
  generateEmbedding_total_fallback (fun _ => none) (fun n => (n : ℝ)) 0 "x" rfl

end AssistantEmbedding
